/-
Verification of the SpyderX colorimeter driver (spyderx.py) and the LUT
generator (generate_lut.py) against their natural-language specification.

The Python source is shallowly embedded: pure byte-decoding helpers become
functions on lists of naturals, the stateful `SpyderX` session object becomes
explicit state passing over a `SpyderX` structure, numpy integer arithmetic
is modelled over `ℤ`, and floating-point matrix arithmetic over `ℚ` (every
operation the source performs on these values — small-integer sums,
differences and products with exactly representable constants — is exact in
Python's binary64, so the rational model coincides with the source's values).
Fallible Python code (raised exceptions) is modelled with `Except`/`Option`.
-/
import Mathlib

namespace SpyderXProof

/-! ## Byte codec (spyderx.py, `SpyderX._read_IEEE754`, lines 110-122)

The source reverses the 4-byte slice, concatenates the bytes' bits into a
binary string, and reads sign (bit 31), exponent (bits 30..23) and fraction
(bits 22..0), returning `(-1)^sign * (1 + fraction/2^23) * 2^(exponent-127)`.
Bit-string slicing of a 4-byte buffer is embedded as division/modulus on the
32-bit value assembled from the reversed bytes. -/

/-- Embeds `SpyderX._read_IEEE754` for a 4-byte input: reverse the byte
order, assemble the 32-bit value, split it into sign/exponent/fraction
fields and evaluate `(-1)^sign * (1 + fraction/2^23) * 2^(exponent-127)`
exactly over `ℚ` (the Python computation is exact in binary64 as well). -/
def read_IEEE754 (input_bytes : List ℕ) : ℚ :=
  let rev := input_bytes.reverse
  let binary : ℕ := rev.foldl (fun acc b => acc * 256 + b) 0
  let sign : ℕ := binary / 2 ^ 31 % 2
  let exponent : ℕ := binary / 2 ^ 23 % 2 ^ 8
  let fraction : ℚ := (binary % 2 ^ 23 : ℕ) / 2 ^ 23
  (-1) ^ sign * (1 + fraction) * (2 : ℚ) ^ ((exponent : ℤ) - 127)

/-- Modelled from the spec: the encoder `decodeReversedIEEE754` is claimed
to invert — it packs sign (1 bit), exponent (8 bits) and fraction (23 bits)
into a 32-bit big-endian value and then reverses the byte order. -/
def encode_IEEE754 (s e m : ℕ) : List ℕ :=
  let n := s * 2 ^ 31 + e * 2 ^ 23 + m
  [n % 256, n / 2 ^ 8 % 256, n / 2 ^ 16 % 256, n / 2 ^ 24 % 256]

/-- Embeds `SpyderX._read_nORD_be` (big-endian unsigned decode). -/
def read_nORD_be (input_bytes : List ℕ) : ℕ :=
  input_bytes.foldl (fun acc b => acc * 256 + b) 0

/-! ## LUT quantization (generate_lut.py, lines 57-59)

The source computes `int(index * 255 / (resolution - 1))`: an exact product,
a float division and truncation toward zero.  For the integer magnitudes
involved this equals the floor of the exact rational quotient, embedded as
natural-number division. -/

/-- Embeds the channel quantization `int(index * 255 / (resolution - 1))`
of `generate_lut` (truncation of the quotient). -/
def quantize (resolution i : ℕ) : ℕ :=
  i * 255 / (resolution - 1)

/-- Modelled from the spec: the spec's quantization formula
`round(index * 255 / (resolution - 1))`, rounding half up
(`floor(x + 1/2)` expressed over naturals). -/
def roundQuantize (resolution i : ℕ) : ℕ :=
  (i * 255 * 2 + (resolution - 1)) / (2 * (resolution - 1))

/-! ## Device session (spyderx.py, class `SpyderX`)

The session object's `self.dev` handle and `self.spyderData` dictionary are
embedded as an explicit `SpyderX` structure.  The dictionary accesses
`spyderData.get('isOpen', False)` / `.get('isBlackCal', False)` become
`Bool` fields defaulting to `false`; keys that may be absent (`calibration`,
`settUp`, `bcal`) become `Option` fields whose absent access is a
`keyError`.  The USB device and its responses are abstracted into an `Env`:
whether a device with the fixed vendor/product identifiers is present, the
factory-calibration and setup blocks it reports, and the four decoded
big-endian 16-bit fields of the 13-byte measurement responses. -/

/-- Factory calibration block (`spyderData['calibration']`): the 3×3 matrix
of `_read_IEEE754` floats and the scalars `v1`, `v2`, `v3`. -/
structure CalibrationData where
  matrix : Fin 3 → Fin 3 → ℚ
  v1 : ℕ
  v2 : ℕ
  v3 : ℕ

/-- Setup block (`spyderData['settUp']`): `s1` (1 byte), `s2` (4 bytes),
`s3` (4 bytes, the per-channel baseline). -/
structure SetupData where
  s1 : ℕ
  s2 : Fin 4 → ℕ
  s3 : Fin 4 → ℕ

/-- The `self.spyderData` dictionary. -/
structure SpyderData where
  isOpen : Bool := false
  isBlackCal : Bool := false
  calibration : Option CalibrationData := none
  settUp : Option SetupData := none
  bcal : Option (Fin 3 → ℤ) := none

/-- The session object: the USB handle `self.dev` (`none` = Python `None`)
and the `spyderData` dictionary. -/
structure SpyderX where
  dev : Option Unit := none
  spyderData : SpyderData := {}

/-- The external USB world: device presence and the data the device reports
during the initialization, calibration and measurement exchanges.  `calRaw`
and `measRaw` are the four decoded big-endian 16-bit fields
(`struct.unpack('>HHHH', out[5:])`) of the respective 13-byte responses. -/
structure Env where
  devicePresent : Bool
  deviceCalib : CalibrationData
  deviceSetup : SetupData
  calRaw : Fin 4 → ℕ
  measRaw : Fin 4 → ℕ

/-- Python errors raised by the session methods. -/
inductive PyError where
  | attributeNone
  | keyError
  | notInitialized
  | notCalibrated
  deriving DecidableEq, Repr

/-- Embeds `SpyderX.initialize` (lines 28-65): look up the device by the
fixed vendor/product identifiers; if absent, print a message and return
`False` (leaving `spyderData` untouched, `dev = None`).  Otherwise claim the
interface, read the factory calibration and setup blocks into `spyderData`,
set `isOpen` and return `True`. -/
def initDevice (env : Env) (st : SpyderX) : Bool × SpyderX :=
  if env.devicePresent then
    (true,
      { dev := some ()
        spyderData :=
          { st.spyderData with
            calibration := some env.deviceCalib
            settUp := some env.deviceSetup
            isOpen := true } })
  else
    (false, { st with dev := none })

/-- Embeds `SpyderX.calibrate` (lines 136-149): if not open, call
`initialize` without checking its result; send the wake control transfer
(an `AttributeError` if `dev` is `None`); read `v2`, `s1`, `s2` from the
stored blocks (a `KeyError` if missing); decode the four big-endian 16-bit
fields of the response and set `bcal = raw[:3] - s3[:3]` and `isBlackCal`.
The returned state is the object's state when the method returns or
raises. -/
def calibrate (env : Env) (st : SpyderX) : SpyderX × Option PyError :=
  let st := if ¬ st.spyderData.isOpen then (initDevice env st).2 else st
  match st.dev with
  | none => (st, some .attributeNone)
  | some _ =>
    match st.spyderData.calibration with
    | none => (st, some .keyError)
    | some _ =>
      match st.spyderData.settUp with
      | none => (st, some .keyError)
      | some su =>
        let raw := env.calRaw
        let bcal : Fin 3 → ℤ :=
          fun i => (raw i.castSucc : ℤ) - (su.s3 i.castSucc : ℤ)
        ({ st with
            spyderData :=
              { st.spyderData with bcal := some bcal, isBlackCal := true } },
          none)

/-- Row-vector–times–matrix product `np.dot(raw[:3], matrix)`. -/
def vecMatMul (v : Fin 3 → ℚ) (m : Fin 3 → Fin 3 → ℚ) : Fin 3 → ℚ :=
  fun j => ∑ i, v i * m i j

/-- Embeds `SpyderX.measure` (lines 151-173): raise
`ValueError("SpyderX not initialized")` if not open, then
`ValueError("Black calibration not performed")` if not black-calibrated;
otherwise send the wake transfer and the measurement command, decode the
four big-endian 16-bit fields, compute
`raw[:3] = raw[:3] - s3[:3] - bcal` (numpy int64 arithmetic, embedded over
`ℤ`) and return `XYZ = np.dot(raw[:3], matrix)`.  `measure` mutates no
session state. -/
def measure (env : Env) (st : SpyderX) : Except PyError (Fin 3 → ℚ) :=
  if ¬ st.spyderData.isOpen then .error .notInitialized
  else if ¬ st.spyderData.isBlackCal then .error .notCalibrated
  else
    match st.dev with
    | none => .error .attributeNone
    | some _ =>
      match st.spyderData.calibration, st.spyderData.settUp,
          st.spyderData.bcal with
      | some c, some su, some bc =>
        let raw := env.measRaw
        let adjusted : Fin 3 → ℤ :=
          fun i => (raw i.castSucc : ℤ) - (su.s3 i.castSucc : ℤ) - bc i
        .ok (vecMatMul (fun i => (adjusted i : ℚ)) c.matrix)
      | _, _, _ => .error .keyError

/-- Embeds `SpyderX.close` (lines 175-178): dispose the USB resource if a
handle is held (no state change modelled) and set `isOpen = False`.  No
other key of `spyderData` is written. -/
def close (st : SpyderX) : SpyderX :=
  { st with spyderData := { st.spyderData with isOpen := false } }

/-! ## Colorimetry and LUT driver (generate_lut.py) -/

/-- An LMS (or XYZ) vector. -/
abbrev LMS := Fin 3 → ℚ

/-- An RGB grid-index triple. -/
abbrev RGB := ℕ × ℕ × ℕ

/-- The fixed Hunt-Pointer-Estevez matrix of `xyz_to_lms`. -/
def xyz_to_lms_matrix : Fin 3 → Fin 3 → ℚ :=
  ![![0.4002, 0.7076, -0.0808],
    ![-0.2263, 1.1653, 0.0457],
    ![0, 0, 0.9182]]

/-- Embeds `xyz_to_lms`: `np.dot(xyz_to_lms_matrix, xyz)` (matrix times
column vector). -/
def xyz_to_lms (xyz : Fin 3 → ℚ) : LMS :=
  fun i => ∑ j, xyz_to_lms_matrix i j * xyz j

/-- The nested `for r / for g / for b` iteration order of `generate_lut`
(lines 53-55): all grid triples with each index below `resolution`, R
outermost. -/
def scanSteps (resolution : ℕ) : List RGB :=
  (List.range resolution).flatMap fun r =>
    (List.range resolution).flatMap fun g =>
      (List.range resolution).map fun b => (r, g, b)

/-- The quantized 8-bit color displayed for a grid triple (lines 57-62). -/
def displayedColor (resolution : ℕ) (t : RGB) : ℕ × ℕ × ℕ :=
  (quantize resolution t.1, quantize resolution t.2.1,
    quantize resolution t.2.2)

/-- Embeds the measurement loop of `generate_lut` (lines 53-84).  `meas k t`
is the XYZ vector `spyder.measure()` returns for the `k`-th sample (grid
triple `t`, zero-based), or `none` when that call raises a transport error —
in which case the exception propagates and the accumulated `lut` is lost
(`Except.error ()`).  After storing each sample the pygame event queue is
polled: `cancel n` says whether a QUIT event is pending once `n` samples are
done; on QUIT the partial `lut` is returned. -/
def lutLoop (meas : ℕ → RGB → Option (Fin 3 → ℚ)) (cancel : ℕ → Bool) :
    List RGB → ℕ → List (RGB × LMS) → Except Unit (List (RGB × LMS))
  | [], _, lut => .ok lut
  | t :: rest, k, lut =>
    match meas k t with
    | none => .error ()
    | some xyz =>
      let lut := lut ++ [(t, xyz_to_lms xyz)]
      if cancel (k + 1) then .ok lut
      else lutLoop meas cancel rest (k + 1) lut

/-- Embeds `generate_lut` (lines 36-88) from the point the scan starts:
iterate over all grid triples accumulating `lut[(r,g,b)] = lms`. -/
def generate_lut (resolution : ℕ) (meas : ℕ → RGB → Option (Fin 3 → ℚ))
    (cancel : ℕ → Bool) : Except Unit (List (RGB × LMS)) :=
  lutLoop meas cancel (scanSteps resolution) 0 []

/-! ## Concrete fixtures used in scenario theorems and witnesses -/

/-- Setup fixture with baseline `s3 = (10, 20, 15, 0)` (the scenario of the
spec's §8). -/
def suC1 : SetupData :=
  { s1 := 0, s2 := ![0, 0, 0, 0], s3 := ![10, 20, 15, 0] }

/-- Black-calibration fixture `bcal = (5, 5, 5)`. -/
def bcC1 : Fin 3 → ℤ := ![5, 5, 5]

/-- Environment fixture: device present, raw measurement counts
`(100, 200, 150, 0)`, calibration matrix `c`. -/
def envC1 (c : CalibrationData) : Env :=
  { devicePresent := true
    deviceCalib := c
    deviceSetup := suC1
    calRaw := ![0, 0, 0, 0]
    measRaw := ![100, 200, 150, 0] }

/-- Session fixture: open, black-calibrated, holding `suC1`/`bcC1` and the
calibration matrix `c`. -/
def stC1 (c : CalibrationData) : SpyderX :=
  { dev := some ()
    spyderData :=
      { isOpen := true
        isBlackCal := true
        calibration := some c
        settUp := some suC1
        bcal := some bcC1 } }

/-- A calibration block whose matrix is the 3×3 identity. -/
def idCalib : CalibrationData :=
  { matrix := fun i j => if i = j then 1 else 0, v1 := 0, v2 := 0, v3 := 0 }

/-- An open, black-calibrated session fixture (no stored blocks needed). -/
def stOpenCal : SpyderX :=
  { dev := some (), spyderData := { isOpen := true, isBlackCal := true } }

/-- An environment fixture with a device present. -/
def envPresent : Env := envC1 idCalib

/-- An environment fixture with no device attached. -/
def envAbsent : Env := { envC1 idCalib with devicePresent := false }

/-! ## Theorems -/

/-- C2 (counterexample): the claim's quantization formula
`round(index * 255 / (resolution - 1))` disagrees with the code's
`int(index * 255 / (resolution - 1))` at resolution 3, index 1: the code
yields `int(127.5) = 127` while rounding (half up or half to even) yields
`128`. -/
theorem C2_counterexample :
    quantize 3 1 = 127 ∧ roundQuantize 3 1 = 128 ∧ (127 : ℕ) ≠ 128 := by
  decide

/-- C2 (amended): for every `resolution ≥ 2` and every grid index, the LUT
driver quantizes the channel index to the 8-bit value
`⌊index * 255 / (resolution - 1)⌋` (truncation, not rounding); in
particular for resolution 2 the grid points `(0,0,0)` and `(0,0,1)` map to
the 8-bit colors `(0,0,0)` and `(0,0,255)`. -/
theorem C2_quantize_floor :
    (∀ n i : ℕ, 2 ≤ n →
      quantize n i = ⌊(i * 255 : ℚ) / ((n : ℚ) - 1)⌋₊) ∧
    displayedColor 2 (0, 0, 0) = (0, 0, 0) ∧
    displayedColor 2 (0, 0, 1) = (0, 0, 255) := by
  refine ⟨fun n i hn => ?_, by decide, by decide⟩
  have h1 : ((n : ℚ) - 1) = ((n - 1 : ℕ) : ℚ) := by
    have : (1 : ℕ) ≤ n := by omega
    push_cast [this]
    ring
  have h2 : ((i : ℚ) * 255) = ((i * 255 : ℕ) : ℚ) := by push_cast; ring
  rw [h1, h2, Nat.floor_div_nat, Nat.floor_natCast]
  rfl

/-- C2 (witness for the amended theorem's hypothesis `2 ≤ n`): at
resolution 3, index 1, the code's quantization equals the floor of the
exact quotient, and evaluates to 127. -/
theorem C2_quantize_floor_witness :
    quantize 3 1 = ⌊(1 * 255 : ℚ) / ((3 : ℚ) - 1)⌋₊ ∧ quantize 3 1 = 127 :=
  ⟨C2_quantize_floor.1 3 1 (by norm_num), by decide⟩

/-- C4: `measure()` fails with `NotInitializedError`
(`ValueError("SpyderX not initialized")`) whenever the session is not open
— in particular after `close()`, even on a session that was
black-calibrated — and fails with `NotCalibratedError`
(`ValueError("Black calibration not performed")`) when it is open but not
black-calibrated; the open check runs first. -/
theorem C4_measure_guards :
    ∀ (env : Env) (st : SpyderX),
      (st.spyderData.isOpen = false →
        measure env st = .error .notInitialized) ∧
      (st.spyderData.isOpen = true → st.spyderData.isBlackCal = false →
        measure env st = .error .notCalibrated) ∧
      measure env (close st) = .error .notInitialized := by
  intro env st
  refine ⟨fun h => ?_, fun h h' => ?_, ?_⟩ <;>
    simp [measure, close, *]

/-- C4 (witness): on the concrete open-but-uncalibrated, closed, and
closed-after-calibration sessions the two errors are produced as stated. -/
theorem C4_measure_guards_witness :
    measure envPresent { dev := some () } = .error .notInitialized ∧
    measure envPresent
        { dev := some (), spyderData := { isOpen := true } } =
      .error .notCalibrated ∧
    measure envPresent (close stOpenCal) = .error .notInitialized :=
  ⟨(C4_measure_guards envPresent { dev := some () }).1 rfl,
    (C4_measure_guards envPresent
      { dev := some (), spyderData := { isOpen := true } }).2.1 rfl rfl,
    (C4_measure_guards envPresent stOpenCal).2.2⟩

/-- C5 (counterexample): `close()` does not clear the black-calibration
flag: on an open black-calibrated session, after `close()` the
`isBlackCal` key is still `True`, and after a subsequent successful
re-`initialize()` the session is open yet still marked black-calibrated
(the claim says it would be open but not black-calibrated). -/
theorem C5_counterexample :
    (close stOpenCal).spyderData.isOpen = false ∧
    (close stOpenCal).spyderData.isBlackCal = true ∧
    (initDevice envPresent (close stOpenCal)).2.spyderData.isOpen = true ∧
    (initDevice envPresent (close stOpenCal)).2.spyderData.isBlackCal
      = true := by
  refine ⟨rfl, rfl, ?_, ?_⟩ <;> simp [initDevice, close, stOpenCal, envPresent, envC1]

/-- C5 (amended): `close()` is safe to call multiple times (idempotent on
the session state) and always clears the open flag, but it retains the
black-calibrated flag: after `close()` followed by a fresh successful
`initialize()` the session is open and its black-calibrated flag is
whatever it was before `close()`. -/
theorem C5_close_behavior :
    ∀ st : SpyderX,
      (close st).spyderData.isOpen = false ∧
      (close st).spyderData.isBlackCal = st.spyderData.isBlackCal ∧
      close (close st) = close st ∧
      ∀ env : Env, env.devicePresent = true →
        (initDevice env (close st)).2.spyderData.isOpen = true ∧
        (initDevice env (close st)).2.spyderData.isBlackCal
          = st.spyderData.isBlackCal := by
  intro st
  refine ⟨rfl, rfl, rfl, fun env h => ?_⟩
  simp [initDevice, close, h]

/-- C5 (witness): the amended behavior at the concrete open
black-calibrated session and the device-present environment. -/
theorem C5_close_behavior_witness :
    (close stOpenCal).spyderData.isOpen = false ∧
    (initDevice envPresent (close stOpenCal)).2.spyderData.isBlackCal
      = stOpenCal.spyderData.isBlackCal :=
  ⟨(C5_close_behavior stOpenCal).1,
    ((C5_close_behavior stOpenCal).2.2.2 envPresent rfl).2⟩

/-- C6: when no USB device with vendor `0x085C` / product `0x0A00` is
present, `initialize()` returns the device-not-found failure (it prints
the not-found message and returns `False`) and the session remains closed:
`spyderData` is untouched and `dev` stays `None`. -/
theorem C6_not_found :
    ∀ (env : Env) (st : SpyderX),
      env.devicePresent = false → st.spyderData.isOpen = false →
      (initDevice env st).1 = false ∧
      (initDevice env st).2.spyderData = st.spyderData ∧
      (initDevice env st).2.spyderData.isOpen = false ∧
      (initDevice env st).2.dev = none := by
  intro env st h h'
  refine ⟨?_, ?_, ?_, ?_⟩ <;> simp [initDevice, h, h']

/-- C6 (witness): with the concrete no-device environment and a fresh
session, `initialize` fails and leaves the session closed. -/
theorem C6_not_found_witness :
    (initDevice envAbsent {}).1 = false ∧
    (initDevice envAbsent {}).2.spyderData.isOpen = false :=
  ⟨(C6_not_found envAbsent {} rfl rfl).1,
    (C6_not_found envAbsent {} rfl rfl).2.2.1⟩

/-- C10: `calibrate()` on a closed session calls `initialize()` without
checking its result; when no device is present, `initialize` leaves
`dev = None` and calibrate proceeds to the wake control transfer, which
raises the null-device `AttributeError` (not a device-not-found error),
and the session remains closed and not black-calibrated. -/
theorem C10_calibrate_unchecked :
    ∀ (env : Env) (st : SpyderX),
      env.devicePresent = false → st.spyderData.isOpen = false →
      st.spyderData.isBlackCal = false →
      (calibrate env st).2 = some .attributeNone ∧
      (calibrate env st).1.dev = none ∧
      (calibrate env st).1.spyderData.isOpen = false ∧
      (calibrate env st).1.spyderData.isBlackCal = false := by
  intro env st h hOpen hCal
  refine ⟨?_, ?_, ?_, ?_⟩ <;> simp [calibrate, initDevice, h, hOpen, hCal]

/-- C10 (witness): a fresh session with no device attached. -/
theorem C10_calibrate_unchecked_witness :
    (calibrate envAbsent {}).2 = some .attributeNone ∧
    (calibrate envAbsent {}).1.spyderData.isOpen = false :=
  ⟨(C10_calibrate_unchecked envAbsent {} rfl rfl rfl).1,
    (C10_calibrate_unchecked envAbsent {} rfl rfl rfl).2.2.1⟩

/-- C1: on an open session with stored setup block `su`, `calibrate()`
succeeds and sets `bcal` to the elementwise difference of the first three
decoded 16-bit fields and the first three bytes of `s3`; on an open
black-calibrated session, `measure()` returns
`XYZ j = ∑ i, (raw i - s3 i - bcal i) * M i j`, the row-vector–matrix
product of the adjusted vector with the 3×3 calibration matrix; and in the
concrete scenario with raw counts `(100,200,150,0)`, `s3 = (10,20,15)`,
`bcal = (5,5,5)`, the adjusted vector is `(85,175,130)` and
`XYZ = (85,175,130) · M` for every matrix `M`. -/
theorem C1_measurement_arithmetic :
    (∀ (env : Env) (st : SpyderX) (c : CalibrationData) (su : SetupData),
      st.spyderData.isOpen = true → st.dev = some () →
      st.spyderData.calibration = some c →
      st.spyderData.settUp = some su →
      (calibrate env st).2 = none ∧
      (calibrate env st).1.spyderData.isBlackCal = true ∧
      (calibrate env st).1.spyderData.bcal =
        some (fun i =>
          (env.calRaw i.castSucc : ℤ) - (su.s3 i.castSucc : ℤ))) ∧
    (∀ (env : Env) (st : SpyderX) (c : CalibrationData) (su : SetupData)
        (bc : Fin 3 → ℤ),
      st.spyderData.isOpen = true → st.spyderData.isBlackCal = true →
      st.dev = some () →
      st.spyderData.calibration = some c →
      st.spyderData.settUp = some su →
      st.spyderData.bcal = some bc →
      measure env st =
        .ok (fun j => ∑ i,
          ((env.measRaw i.castSucc : ℚ) - (su.s3 i.castSucc : ℚ)
              - (bc i : ℚ)) * c.matrix i j)) ∧
    (∀ c : CalibrationData,
      measure (envC1 c) (stC1 c) =
        .ok (fun j =>
          85 * c.matrix 0 j + 175 * c.matrix 1 j + 130 * c.matrix 2 j)) := by
  have hmeas : ∀ (env : Env) (st : SpyderX) (c : CalibrationData)
      (su : SetupData) (bc : Fin 3 → ℤ),
      st.spyderData.isOpen = true → st.spyderData.isBlackCal = true →
      st.dev = some () →
      st.spyderData.calibration = some c →
      st.spyderData.settUp = some su →
      st.spyderData.bcal = some bc →
      measure env st =
        .ok (fun j => ∑ i,
          ((env.measRaw i.castSucc : ℚ) - (su.s3 i.castSucc : ℚ)
              - (bc i : ℚ)) * c.matrix i j) := by
    intro env st c su bc hOpen hCal hDev hc hsu hbc
    have hok : measure env st =
        .ok (vecMatMul
          (fun i => (((env.measRaw i.castSucc : ℤ) -
            (su.s3 i.castSucc : ℤ) - bc i : ℤ) : ℚ)) c.matrix) := by
      simp [measure, hOpen, hCal, hDev, hc, hsu, hbc]
    rw [hok]
    congr 1
    funext j
    simp only [vecMatMul]
    refine Finset.sum_congr rfl fun i _ => ?_
    push_cast
    ring
  refine ⟨?_, hmeas, ?_⟩
  · intro env st c su hOpen hDev hc hsu
    simp [calibrate, hOpen, hDev, hc, hsu]
  · intro c
    rw [hmeas (envC1 c) (stC1 c) c suC1 bcC1 rfl rfl rfl rfl rfl rfl]
    congr 1
    funext j
    rw [Fin.sum_univ_three]
    have e0 : (envC1 c).measRaw (Fin.castSucc 0) = 100 := rfl
    have e1 : (envC1 c).measRaw (Fin.castSucc 1) = 200 := rfl
    have e2 : (envC1 c).measRaw (Fin.castSucc 2) = 150 := rfl
    have s0 : suC1.s3 (Fin.castSucc 0) = 10 := rfl
    have s1 : suC1.s3 (Fin.castSucc 1) = 20 := rfl
    have s2 : suC1.s3 (Fin.castSucc 2) = 15 := rfl
    have b0 : bcC1 0 = 5 := rfl
    have b1 : bcC1 1 = 5 := rfl
    have b2 : bcC1 2 = 5 := rfl
    rw [e0, e1, e2, s0, s1, s2, b0, b1, b2]
    norm_num

/-- C1 (witness): at the identity calibration matrix and the scenario
fixtures, `calibrate` stores `bcal = calRaw[:3] - s3[:3]` and `measure`
returns the adjusted vector `(85, 175, 130)` times the identity matrix. -/
theorem C1_measurement_arithmetic_witness :
    (calibrate (envC1 idCalib) (stC1 idCalib)).1.spyderData.bcal =
      some (fun i =>
        ((envC1 idCalib).calRaw i.castSucc : ℤ) -
          (suC1.s3 i.castSucc : ℤ)) ∧
    measure (envC1 idCalib) (stC1 idCalib) =
      .ok (fun j => 85 * idCalib.matrix 0 j + 175 * idCalib.matrix 1 j
        + 130 * idCalib.matrix 2 j) :=
  ⟨(C1_measurement_arithmetic.1 (envC1 idCalib) (stC1 idCalib) idCalib suC1
      rfl rfl rfl rfl).2.2,
    C1_measurement_arithmetic.2.2 idCalib⟩

/-- Unfolding of `read_IEEE754` in terms of the assembled 32-bit value. -/
lemma read_IEEE754_eq_val (l : List ℕ) (n : ℕ)
    (h : l.reverse.foldl (fun acc b => acc * 256 + b) 0 = n) :
    read_IEEE754 l =
      (-1) ^ (n / 2 ^ 31 % 2) * (1 + ((n % 2 ^ 23 : ℕ) : ℚ) / 2 ^ 23) *
        (2 : ℚ) ^ (((n / 2 ^ 23 % 2 ^ 8 : ℕ) : ℤ) - 127) := by
  simp only [read_IEEE754, h]

/-- Sign, fraction and exponent force the decoded magnitude into
`[2^-127, 2^129)` for every assembled 32-bit value. -/
lemma decoded_form_bounds (n : ℕ) :
    ((-1 : ℚ) ^ (n / 2 ^ 31 % 2) * (1 + ((n % 2 ^ 23 : ℕ) : ℚ) / 2 ^ 23) *
        (2 : ℚ) ^ (((n / 2 ^ 23 % 2 ^ 8 : ℕ) : ℤ) - 127) ≠ 0) ∧
    (2 : ℚ) ^ (-127 : ℤ) ≤
      |(-1 : ℚ) ^ (n / 2 ^ 31 % 2) *
        (1 + ((n % 2 ^ 23 : ℕ) : ℚ) / 2 ^ 23) *
        (2 : ℚ) ^ (((n / 2 ^ 23 % 2 ^ 8 : ℕ) : ℤ) - 127)| ∧
    |(-1 : ℚ) ^ (n / 2 ^ 31 % 2) *
        (1 + ((n % 2 ^ 23 : ℕ) : ℚ) / 2 ^ 23) *
        (2 : ℚ) ^ (((n / 2 ^ 23 % 2 ^ 8 : ℕ) : ℤ) - 127)| <
      (2 : ℚ) ^ (129 : ℤ) := by
  set f : ℚ := ((n % 2 ^ 23 : ℕ) : ℚ) / 2 ^ 23 with hf_def
  set E : ℤ := ((n / 2 ^ 23 % 2 ^ 8 : ℕ) : ℤ) with hE_def
  have hf0 : 0 ≤ f := by positivity
  have hfrac : ((n % 2 ^ 23 : ℕ) : ℚ) < 2 ^ 23 := by
    exact_mod_cast Nat.mod_lt n (by norm_num)
  have hf1 : f < 1 := (div_lt_one (by norm_num)).2 hfrac
  have hzpos : (0 : ℚ) < (2 : ℚ) ^ (E - 127) := zpow_pos (by norm_num) _
  have hElo : (-127 : ℤ) ≤ E - 127 := by
    have : (0 : ℤ) ≤ E := by rw [hE_def]; exact Int.ofNat_nonneg _
    omega
  have hEhi : E - 127 ≤ 128 := by
    have h8 : n / 2 ^ 23 % 2 ^ 8 < 2 ^ 8 := Nat.mod_lt _ (by norm_num)
    have : E < 256 := by rw [hE_def]; exact_mod_cast h8
    omega
  have habs :
      |(-1 : ℚ) ^ (n / 2 ^ 31 % 2) * (1 + f) * (2 : ℚ) ^ (E - 127)| =
        (1 + f) * (2 : ℚ) ^ (E - 127) := by
    rw [abs_mul, abs_mul, abs_pow, abs_neg, abs_one, one_pow, one_mul,
      abs_of_pos (by linarith), abs_of_pos hzpos]
  have hlow : (2 : ℚ) ^ (-127 : ℤ) ≤ (1 + f) * (2 : ℚ) ^ (E - 127) := by
    have h1 : (2 : ℚ) ^ (-127 : ℤ) ≤ (2 : ℚ) ^ (E - 127) :=
      zpow_le_zpow_right₀ (by norm_num) hElo
    nlinarith [zpow_pos (show (0 : ℚ) < 2 by norm_num) (-127 : ℤ)]
  have hhigh : (1 + f) * (2 : ℚ) ^ (E - 127) < (2 : ℚ) ^ (129 : ℤ) := by
    have h1 : (2 : ℚ) ^ (E - 127) ≤ (2 : ℚ) ^ (128 : ℤ) :=
      zpow_le_zpow_right₀ (by norm_num) hEhi
    have h2 : (2 : ℚ) * (2 : ℚ) ^ (128 : ℤ) = (2 : ℚ) ^ (129 : ℤ) := by
      rw [show (129 : ℤ) = 1 + 128 by norm_num,
        zpow_add₀ (show (2 : ℚ) ≠ 0 by norm_num), zpow_one]
    nlinarith
  refine ⟨?_, ?_, ?_⟩
  · intro h0
    rw [h0, abs_zero] at habs
    nlinarith
  · rw [habs]; exact hlow
  · rw [habs]; exact hhigh

/-- C7: for every valid sign/exponent/fraction field triple, decoding the
byte-reversed packed representation with `_read_IEEE754` recovers exactly
`(-1)^sign * (1 + fraction/2^23) * 2^(exponent-127)`: the decoder inverts
the spec's encoder bit-exactly on every representable value. -/
theorem C7_decode_encode (s e m : ℕ)
    (hs : s < 2) (he : e < 256) (hm : m < 2 ^ 23) :
    read_IEEE754 (encode_IEEE754 s e m) =
      (-1) ^ s * (1 + (m : ℚ) / 2 ^ 23) * (2 : ℚ) ^ ((e : ℤ) - 127) := by
  set n : ℕ := s * 2 ^ 31 + e * 2 ^ 23 + m with hn_def
  have hn : n < 2 ^ 32 := by omega
  have henc : encode_IEEE754 s e m =
      [n % 256, n / 2 ^ 8 % 256, n / 2 ^ 16 % 256, n / 2 ^ 24 % 256] := rfl
  have hfold :
      ([n % 256, n / 2 ^ 8 % 256, n / 2 ^ 16 % 256,
          n / 2 ^ 24 % 256] : List ℕ).reverse.foldl
        (fun acc b => acc * 256 + b) 0 = n := by
    simp only [List.reverse_cons, List.reverse_nil, List.nil_append,
      List.cons_append, List.foldl]
    omega
  rw [henc, read_IEEE754_eq_val _ n hfold]
  have h1 : n / 2 ^ 31 % 2 = s := by omega
  have h2 : n / 2 ^ 23 % 2 ^ 8 = e := by omega
  have h3 : n % 2 ^ 23 = m := by omega
  rw [h1, h2, h3]

/-- C7 (witness): decoding the encoding of sign 1, exponent 130, fraction
`2^22` yields exactly `-(1 + 1/2) * 2^3 = -12`. -/
theorem C7_decode_encode_witness :
    read_IEEE754 (encode_IEEE754 1 130 (2 ^ 22)) =
      (-1) ^ 1 * (1 + ((2 ^ 22 : ℕ) : ℚ) / 2 ^ 23) *
        (2 : ℚ) ^ ((130 : ℤ) - 127) ∧
    (-1 : ℚ) ^ 1 * (1 + ((2 ^ 22 : ℕ) : ℚ) / 2 ^ 23) *
        (2 : ℚ) ^ ((130 : ℤ) - 127) = -12 := by
  constructor
  · exact_mod_cast C7_decode_encode 1 130 (2 ^ 22) (by norm_num)
      (by norm_num) (by norm_num)
  · norm_num

/-- C9: for every 4-byte input the reversed-float decoder returns a nonzero
finite rational whose absolute value lies in `[2^-127, 2^129)` — it can
never return 0, and (having no special case for the zero/infinity/NaN bit
patterns) the all-zero input decodes to `2^-127`, not to `0.0`. -/
theorem C9_decoder_range :
    (∀ l : List ℕ, l.length = 4 → (∀ b ∈ l, b < 256) →
      read_IEEE754 l ≠ 0 ∧
      (2 : ℚ) ^ (-127 : ℤ) ≤ |read_IEEE754 l| ∧
      |read_IEEE754 l| < (2 : ℚ) ^ (129 : ℤ)) ∧
    read_IEEE754 [0, 0, 0, 0] = (2 : ℚ) ^ (-127 : ℤ) := by
  constructor
  · intro l _ _
    rw [read_IEEE754_eq_val l
      (l.reverse.foldl (fun acc b => acc * 256 + b) 0) rfl]
    exact decoded_form_bounds _
  · rw [read_IEEE754_eq_val [0, 0, 0, 0] 0 (by norm_num)]
    norm_num

/-- C9 (witness): the bounds at the concrete all-zero 4-byte input. -/
theorem C9_decoder_range_witness :
    read_IEEE754 [0, 0, 0, 0] ≠ 0 ∧
    (2 : ℚ) ^ (-127 : ℤ) ≤ |read_IEEE754 [0, 0, 0, 0]| :=
  ⟨(C9_decoder_range.1 [0, 0, 0, 0] rfl (by decide)).1,
    (C9_decoder_range.1 [0, 0, 0, 0] rfl (by decide)).2.1⟩

/-- The scan visits exactly `resolution³` grid points. -/
lemma scanSteps_length (n : ℕ) : (scanSteps n).length = n ^ 3 := by
  simp [scanSteps, Function.comp_def]
  ring

/-- A triple is visited iff each channel index is below the resolution. -/
lemma mem_scanSteps (n : ℕ) (t : RGB) :
    t ∈ scanSteps n ↔ t.1 < n ∧ t.2.1 < n ∧ t.2.2 < n := by
  obtain ⟨r, g, b⟩ := t
  simp [scanSteps]
  constructor
  · rintro ⟨a, ha, a1, ha1, a2, ha2, rfl, rfl, rfl⟩
    exact ⟨ha, ha1, ha2⟩
  · rintro ⟨h1, h2, h3⟩
    exact ⟨r, h1, g, h2, b, h3, rfl, rfl, rfl⟩

/-- With no transport failure and no cancellation, the loop appends one
entry per visited triple, each keyed by a visited triple. -/
lemma lutLoop_total (f : ℕ → RGB → Fin 3 → ℚ) (cancel : ℕ → Bool)
    (hcancel : ∀ j, cancel j = false) :
    ∀ (steps : List RGB) (k : ℕ) (acc : List (RGB × LMS)),
      ∃ L, lutLoop (fun k t => some (f k t)) cancel steps k acc = .ok L ∧
        L.length = acc.length + steps.length ∧
        ∀ p ∈ L, p ∈ acc ∨ p.1 ∈ steps := by
  intro steps
  induction steps with
  | nil =>
    intro k acc
    exact ⟨acc, rfl, by simp [lutLoop], fun p hp => Or.inl hp⟩
  | cons t rest ih =>
    intro k acc
    obtain ⟨L, hL, hlen, hmem⟩ := ih (k + 1) (acc ++ [(t, xyz_to_lms (f k t))])
    refine ⟨L, ?_, ?_, ?_⟩
    · simp only [lutLoop, hcancel, Bool.false_eq_true, if_false]
      exact hL
    · simp at hlen ⊢
      omega
    · intro p hp
      rcases hmem p hp with h | h
      · rcases List.mem_append.1 h with h | h
        · exact Or.inl h
        · right
          rw [List.mem_singleton.1 h]
          exact List.mem_cons_self t rest
      · exact Or.inr (List.mem_cons_of_mem t h)

/-- If the first cancellation poll that reports a QUIT event is the one
after the `N`-th sample and the first `N` measurements succeed, the loop
returns a LUT holding the accumulated entries plus the `N - k` new ones. -/
lemma lutLoop_cancelled (meas : ℕ → RGB → Option (Fin 3 → ℚ))
    (cancel : ℕ → Bool) (N : ℕ)
    (hmeas : ∀ j t, j < N → meas j t ≠ none)
    (hcancel : ∀ j, j < N → cancel j = false)
    (hN : cancel N = true) :
    ∀ (steps : List RGB) (k : ℕ) (acc : List (RGB × LMS)),
      k < N → N ≤ k + steps.length →
      ∃ L, lutLoop meas cancel steps k acc = .ok L ∧
        L.length = acc.length + (N - k) := by
  intro steps
  induction steps with
  | nil =>
    intro k acc hk hle
    simp only [List.length_nil, Nat.add_zero] at hle
    omega
  | cons t rest ih =>
    intro k acc hk hle
    obtain ⟨xyz, hxyz⟩ : ∃ xyz, meas k t = some xyz := by
      cases h : meas k t with
      | none => exact absurd h (hmeas k t hk)
      | some xyz => exact ⟨xyz, rfl⟩
    by_cases hkN : k + 1 = N
    · refine ⟨acc ++ [(t, xyz_to_lms xyz)], ?_, ?_⟩
      · simp [lutLoop, hxyz, hkN, hN]
      · simp only [List.length_append, List.length_singleton]
        omega
    · have hk1 : k + 1 < N := by omega
      obtain ⟨L, hL, hlen⟩ := ih (k + 1) (acc ++ [(t, xyz_to_lms xyz)]) hk1
        (by simp only [List.length_cons] at hle; omega)
      refine ⟨L, ?_, ?_⟩
      · simp only [lutLoop, hxyz, hcancel (k + 1) hk1, Bool.false_eq_true,
          if_false]
        exact hL
      · simp only [List.length_append, List.length_singleton] at hlen
        omega

/-- If the measurement at zero-based index `N` raises a transport error,
the first `N` measurements succeed and no cancellation occurs up to that
point, the loop propagates the exception and the accumulated LUT is
lost. -/
lemma lutLoop_failure (meas : ℕ → RGB → Option (Fin 3 → ℚ))
    (cancel : ℕ → Bool) (N : ℕ)
    (hmeas : ∀ j t, j < N → meas j t ≠ none)
    (hfail : ∀ t, meas N t = none)
    (hcancel : ∀ j, j ≤ N → cancel j = false) :
    ∀ (steps : List RGB) (k : ℕ) (acc : List (RGB × LMS)),
      k ≤ N → N < k + steps.length →
      lutLoop meas cancel steps k acc = .error () := by
  intro steps
  induction steps with
  | nil =>
    intro k acc hk hlt
    simp only [List.length_nil, Nat.add_zero] at hlt
    omega
  | cons t rest ih =>
    intro k acc hk hlt
    by_cases hkN : k = N
    · subst hkN
      simp [lutLoop, hfail t]
    · have hklt : k < N := by omega
      obtain ⟨xyz, hxyz⟩ : ∃ xyz, meas k t = some xyz := by
        cases h : meas k t with
        | none => exact absurd h (hmeas k t hklt)
        | some xyz => exact ⟨xyz, rfl⟩
      simp only [lutLoop, hxyz, hcancel (k + 1) (by omega),
        Bool.false_eq_true, if_false]
      exact ih (k + 1) _ (by omega)
        (by simp only [List.length_cons] at hlt; omega)

/-- C8: for every resolution ≥ 2, an uninterrupted scan (no transport
failure, no cancellation) produces a LUT with exactly `resolution³`
entries, every key a triple of channel indices in `[0, resolution-1]`. -/
theorem C8_full_scan :
    ∀ n : ℕ, 2 ≤ n → ∀ f : ℕ → RGB → Fin 3 → ℚ,
      ∃ L, generate_lut n (fun k t => some (f k t)) (fun _ => false) =
          .ok L ∧
        L.length = n ^ 3 ∧
        ∀ p ∈ L, p.1.1 ≤ n - 1 ∧ p.1.2.1 ≤ n - 1 ∧ p.1.2.2 ≤ n - 1 := by
  intro n hn f
  obtain ⟨L, hL, hlen, hmem⟩ :=
    lutLoop_total f (fun _ => false) (fun _ => rfl) (scanSteps n) 0 []
  refine ⟨L, hL, ?_, ?_⟩
  · rw [hlen, scanSteps_length]
    simp
  · intro p hp
    rcases hmem p hp with h | h
    · exact absurd h (List.not_mem_nil p)
    · have := (mem_scanSteps n p.1).1 h
      omega

/-- C8 (witness): at resolution 2 and a constant measurement the scan
yields all `2³ = 8` entries with in-range keys. -/
theorem C8_full_scan_witness :
    ∃ L, generate_lut 2 (fun k t => some ((fun _ _ _ => (0 : ℚ)) k t))
        (fun _ => false) = .ok L ∧
      L.length = 2 ^ 3 ∧
      ∀ p ∈ L, p.1.1 ≤ 2 - 1 ∧ p.1.2.1 ≤ 2 - 1 ∧ p.1.2.2 ≤ 2 - 1 :=
  C8_full_scan 2 (by norm_num) (fun _ _ _ => 0)

/-- C3 (counterexample): a transport failure during the first measurement
(zero completed samples) makes `generate_lut` propagate the exception —
the result is the error, not the partially filled (here empty) LUT the
claim promises. -/
theorem C3_counterexample :
    generate_lut 2 (fun _ _ => none) (fun _ => false) = .error () ∧
    generate_lut 2 (fun _ _ => none) (fun _ => false) ≠ .ok [] := by
  have h : generate_lut 2 (fun _ _ => none) (fun _ => false) = .error () :=
    rfl
  refine ⟨h, ?_⟩
  rw [h]
  exact fun hc => Except.noConfusion hc

/-- C3 (amended): if cancellation is signalled at the poll after the
`N`-th sample (`1 ≤ N ≤ resolution³`) with all measurements up to it
succeeding, the scan stops and still returns the partially filled LUT with
exactly the `N` completed entries; but a transport failure during the
`(N+1)`-th measurement propagates as an exception and the partial LUT is
discarded, not returned. -/
theorem C3_cancel_keeps_lut :
    (∀ (n N : ℕ) (meas : ℕ → RGB → Option (Fin 3 → ℚ))
        (cancel : ℕ → Bool),
      1 ≤ N → N ≤ n ^ 3 →
      (∀ j t, j < N → meas j t ≠ none) →
      (∀ j, j < N → cancel j = false) →
      cancel N = true →
      ∃ L, generate_lut n meas cancel = .ok L ∧ L.length = N) ∧
    (∀ (n N : ℕ) (meas : ℕ → RGB → Option (Fin 3 → ℚ))
        (cancel : ℕ → Bool),
      N < n ^ 3 →
      (∀ j t, j < N → meas j t ≠ none) →
      (∀ t, meas N t = none) →
      (∀ j, j ≤ N → cancel j = false) →
      generate_lut n meas cancel = .error ()) := by
  constructor
  · intro n N meas cancel h1 h2 hm hc hN
    obtain ⟨L, hL, hlen⟩ := lutLoop_cancelled meas cancel N hm hc hN
      (scanSteps n) 0 [] (by omega) (by rw [scanSteps_length]; omega)
    exact ⟨L, hL, by simpa using hlen⟩
  · intro n N meas cancel h1 hm hf hc
    exact lutLoop_failure meas cancel N hm hf hc (scanSteps n) 0 []
      (by omega) (by rw [scanSteps_length]; omega)

/-- C3 (witness): cancelling after the first of the eight samples of a
resolution-2 scan returns a one-entry LUT, and a transport failure on the
very first sample with no cancellation pending yields the error. -/
theorem C3_cancel_keeps_lut_witness :
    (∃ L, generate_lut 2 (fun _ _ => some fun _ => (0 : ℚ))
        (fun j => decide (j = 1)) = .ok L ∧ L.length = 1) ∧
    generate_lut 2 (fun _ _ => none) (fun _ => false) = .error () :=
  ⟨C3_cancel_keeps_lut.1 2 1 _ _ (by norm_num) (by norm_num)
      (fun _ _ _ => Option.some_ne_none _)
      (fun j hj => by
        have hj0 : j = 0 := by omega
        rw [hj0]
        rfl)
      rfl,
    C3_cancel_keeps_lut.2 2 0 _ _ (by norm_num)
      (fun j t hj => absurd hj (by omega))
      (fun t => rfl)
      (fun j hj => rfl)⟩

end SpyderXProof
